import Mathlib

set_option autoImplicit false

/-!
Verification development for the detailed_discovery report-generation service.

The development shallowly embeds the Python sources:
  lambda_coordinator.py   (job submission and polling)
  lambda_event_handler.py (worker: fan-out, upload, status aggregation)
  src/run_parallel.py     (per-kind runner wrappers)
  compliance_report.py, report_labs_executive.py, src/technical_report.py
  (assessment normalisation: company name and industry inference)

Machine-level concerns (S3 and Bedrock network calls, the filesystem and the
clock) are abstracted as explicit environment parameters; everything else is
translated directly from the source.
-/

/-! Python value model: the subset of Python values the handlers move around
(dicts with string keys, strings, and None).  Dict lookups default to None,
as dict.get does; truthiness follows Python (empty string and empty dict are
falsy, None is falsy). -/

inductive PyVal where
  | vnone : PyVal
  | vstr : String → PyVal
  | vdict : List (String × PyVal) → PyVal

abbrev PyDict := List (String × PyVal)

def dget (d : PyDict) (k : String) : PyVal :=
  match d.find? (fun kv => kv.1 == k) with
  | some kv => kv.2
  | none => PyVal.vnone

def dset (d : PyDict) (k : String) (v : PyVal) : PyDict :=
  if d.any (fun kv => kv.1 == k) then
    d.map (fun kv => if kv.1 == k then (kv.1, v) else kv)
  else d ++ [(k, v)]

def truthy : PyVal → Bool
  | PyVal.vnone => false
  | PyVal.vstr s => !(s == "")
  | PyVal.vdict d => !d.isEmpty

/-- Python `a or b` specialised to our value model. -/
def pyOr (a b : PyVal) : PyVal := if truthy a then a else b

/-- Python str() on the values that reach it in the handlers.  The repr of a
dict is abstracted (no modeled code path inspects that string). -/
def pyToStr : PyVal → String
  | PyVal.vstr s => s
  | PyVal.vnone => "None"
  | PyVal.vdict _ => "<dict>"

def optStr : Option String → PyVal
  | some s => PyVal.vstr s
  | none => PyVal.vnone

/-! Assessment responses: the incoming JSON has a "responses" object whose
values, in every field the generators read, are strings.  responses.get with
a default is rget; a plain lookup distinguishing a missing key is rlookup. -/

abbrev Responses := List (String × String)

def rlookup (r : Responses) (k : String) : Option String :=
  (r.find? (fun kv => kv.1 == k)).map (fun kv => kv.2)

def rget (r : Responses) (k d : String) : String := (rlookup r k).getD d

/-! Character-level string operations.  They are written structurally over
the character list (String.mk and String.data) so that the kernel can
evaluate them; they agree with the corresponding Python string methods on
the ASCII data the service handles. -/

def strLower (s : String) : String := String.mk (s.data.map Char.toLower)

def strTrim (s : String) : String :=
  String.mk (((s.data.dropWhile Char.isWhitespace).reverse.dropWhile Char.isWhitespace).reverse)

def strHasChar (s : String) (c : Char) : Bool := s.data.contains c

def strTakeWhile (s : String) (p : Char → Bool) : String := String.mk (s.data.takeWhile p)

def strEndsWithSuffix (s pat : String) : Bool := pat.data.reverse.isPrefixOf s.data.reverse

/-- Contiguous-sublist test on character lists. -/
def charsSub (pat : List Char) : List Char → Bool
  | [] => pat.isEmpty
  | c :: rest => pat.isPrefixOf (c :: rest) || charsSub pat rest

/-- Python substring containment (`pat in s`). -/
def strContainsSub (s pat : String) : Bool := charsSub pat.toList s.toList

/-! Industry inference (report_labs_executive._infer_industry,
technical_report._infer_industry, compliance_report._infer_industry).
The executive and technical generators use three keyword sets; the
compliance generator has no manufacturing set and adds "advisory" to the
financial set. -/

def hcKws : List String := ["clinical", "physician", "patient", "healthcare", "medical"]

def finKwsExec : List String := ["financial", "banking", "fintech", "payment", "trading", "market"]

def mfgKws : List String := ["vehicle", "manufacturing", "automotive"]

def finKwsComp : List String :=
  ["financial", "banking", "fintech", "payment", "trading", "market", "advisory"]

def anyKw (kws : List String) (problem : String) : Bool :=
  kws.any (fun w => strContainsSub problem w)

def inferIndustryExec (r : Responses) : String :=
  let problem := strLower (rget r "business-problems" "")
  if anyKw hcKws problem then "Healthcare Technology"
  else if anyKw finKwsExec problem then "Financial Technology"
  else if anyKw mfgKws problem then "Manufacturing & Automotive"
  else "Technology"

def inferIndustryTech (r : Responses) : String :=
  let problem := strLower (rget r "business-problems" "")
  if anyKw hcKws problem then "Healthcare Technology"
  else if anyKw finKwsExec problem then "Financial Technology"
  else if anyKw mfgKws problem then "Manufacturing & Automotive"
  else "Technology"

def inferIndustryComp (r : Responses) : String :=
  let problem := strLower (rget r "business-problems" "")
  if anyKw hcKws problem then "Healthcare Technology"
  else if anyKw finKwsComp problem then "Financial Technology"
  else "Technology"

/-! Company-name normalisation (process_assessment_data in the three
generators).  All three take the part before the first comma of the
business-owner field when a comma is present; they differ in the fallback. -/

def beforeCommaTrim (s : String) : String := strTrim (strTakeWhile s (fun c => !(c == ',')))

def companyNameExec (r : Responses) : String :=
  let business_owner := rget r "business-owner" ""
  if strHasChar business_owner ',' then beforeCommaTrim business_owner
  else "Valued Customer"

def companyNameComp (r : Responses) : String :=
  let business_owner := rget r "business-owner" ""
  if strHasChar business_owner ',' then beforeCommaTrim business_owner
  else rget r "company-name" "Valued Customer"

def companyNameTech (r : Responses) : String :=
  let business_owner := rget r "business-owner" ""
  if strHasChar business_owner ',' then beforeCommaTrim business_owner
  else
    let c := rget r "company-name" "Valued Customer"
    if c == "" then "Valued Customer" else c

/-! Compliance applicability gate (compliance_report.py). -/

def should_generate_compliance_report (industry : String) : Bool :=
  ["healthcare", "financial", "finance", "banking"].any
    (fun ind => strContainsSub (strLower industry) ind)

/-- Observable outcome of ComplianceReportGenerator.generate_report:
returning None when the gate declines, a results dict on success, or a
re-raised exception. -/
inductive CompReport where
  | notApplicable : CompReport
  | generated : PyVal → CompReport
  | errored : String → CompReport

/-- ComplianceReportGenerator.generate_report with content generation, PDF
rendering and the results dict abstracted into the produce parameter (they
are Bedrock and filesystem effects). -/
def complianceGenerate (produce : Except String PyVal) (r : Responses) (force : Bool) :
    CompReport :=
  let industry := inferIndustryComp r
  if (!force) && (!(should_generate_compliance_report industry)) then
    CompReport.notApplicable
  else
    match produce with
    | Except.ok v => CompReport.generated v
    | Except.error m => CompReport.errored m

/-! Per-kind runner wrappers (src/run_parallel.py).  A producer run either
returns a value (ok) or raises (raises); the run_ wrappers catch the
exception and record it in a ReportResult with status "error". -/

inductive GenOutcome where
  | ok : PyVal → GenOutcome
  | raises : String → GenOutcome

inductive RKind where
  | executive : RKind
  | technical : RKind
  | compliance : RKind
deriving DecidableEq, Repr

def RKind.tag : RKind → String
  | RKind.executive => "executive"
  | RKind.technical => "technical"
  | RKind.compliance => "compliance"

/-- ReportResult dataclass of run_parallel.py.  duration_seconds is omitted:
it is a wall-clock float consulted by nothing that is modeled. -/
structure ReportResult where
  name : String
  status : String
  output_path : Option String := Option.none
  extra : Option PyVal := Option.none
  error : Option String := Option.none
  started_at : Option String := Option.none
  finished_at : Option String := Option.none

/-- Output-path extraction shared by run_executive, run_technical and
run_compliance: a dict result is probed for output_path then pdf_path, a
string result counts only when it ends in ".pdf" case-insensitively, and the
final truthiness check mirrors `str(output_path) if output_path else None`. -/
def resultOutputPath (v : PyVal) : Option String :=
  match v with
  | PyVal.vdict d =>
      let op := pyOr (dget d "output_path") (dget d "pdf_path")
      if truthy op then some (pyToStr op) else Option.none
  | PyVal.vstr s => if strEndsWithSuffix (strLower s) ".pdf" then some s else Option.none
  | PyVal.vnone => Option.none

/-- Extra field construction: `result if isinstance(result, dict) else
\x7b"return": str(result)\x7d`. -/
def resultExtra (v : PyVal) : PyVal :=
  match v with
  | PyVal.vdict d => PyVal.vdict d
  | other => PyVal.vdict [("return", PyVal.vstr (pyToStr other))]

/-- Common body of run_executive, run_technical and run_compliance. -/
def runReport (nm : String) (g : GenOutcome) (t0 t1 : String) : ReportResult :=
  match g with
  | GenOutcome.ok v =>
      { name := nm, status := "success", output_path := resultOutputPath v,
        extra := some (resultExtra v), started_at := some t0, finished_at := some t1 }
  | GenOutcome.raises m =>
      { name := nm, status := "error", error := some m,
        started_at := some t0, finished_at := some t1 }

/-- Behaviour of generate_report as seen by run_compliance: None on a
declined gate, the results dict on success, a re-raised exception on error. -/
def complianceGenOutcome (produce : Except String PyVal) (r : Responses) (force : Bool) :
    GenOutcome :=
  match complianceGenerate produce r force with
  | CompReport.notApplicable => GenOutcome.ok PyVal.vnone
  | CompReport.generated v => GenOutcome.ok v
  | CompReport.errored m => GenOutcome.raises m

/-- run_compliance(json_path, force): wraps the compliance generator. -/
def run_compliance_wrap (r : Responses) (produce : Except String PyVal) (force : Bool)
    (t0 t1 : String) : ReportResult :=
  runReport "compliance" (complianceGenOutcome produce r force) t0 t1

/-- The worker submits `lambda p: run_compliance(p, force=True)`
(lambda_event_handler.py line 118; run_parallel.main line 219 is identical). -/
def workerComplianceCall (r : Responses) (produce : Except String PyVal)
    (t0 t1 : String) : ReportResult :=
  run_compliance_wrap r produce true t0 t1

/-! Worker handler (lambda_event_handler.py). -/

/-- One entry of s3_reports: upload_and_presign output merged with the type
tag added at append time. -/
structure UploadInfo where
  type : RKind
  bucket : String
  key : String
  presigned_url : String
  expires_in_seconds : Nat
deriving DecidableEq, Repr

/-- The persisted DynamoDB job record.  Timestamps are modeled as naturals
(ISO strings order the same way the clock does); metadata keeps the
combined_results map. -/
structure JobItem where
  job_id : String
  status : String
  created_at : Nat
  updated_at : Nat
  metadata : Option (List (RKind × PyDict)) := Option.none
  s3_reports : Option (List UploadInfo) := Option.none
  error_message : Option String := Option.none

/-- _normalize_result in lambda_event_handler.handler.  A non-success or
missing result becomes the empty dict; otherwise the extra dict gains a
pdf_path entry when any of pdf_path, output_path or the result output path
is truthy.  The loop copying company_name, industry and timestamp from
res.extra into base is the identity because base aliases res.extra. -/
def normalizeResult (res : ReportResult) : PyDict :=
  if !(res.status == "success") then []
  else
    let base :=
      match res.extra with
      | some (PyVal.vdict d) => d
      | _ => []
    let pdf_path := pyOr (dget base "pdf_path") (pyOr (dget base "output_path") (optStr res.output_path))
    if truthy pdf_path then dset base "pdf_path" pdf_path else base

/-- extract_company_name in lambda_event_handler.handler (the coordinator
has an identical copy): direct company_name first, then meta.company_name,
else the "customer" placeholder. -/
def extract_company_name (res : PyDict) : String :=
  if res.isEmpty then "customer"
  else if truthy (dget res "company_name") then pyToStr (dget res "company_name")
  else
    match dget res "meta" with
    | PyVal.vdict m =>
        if truthy (dget m "company_name") then pyToStr (dget m "company_name") else "customer"
    | _ => "customer"

/-- Company-name sanitisation used for the S3 key:
lowercase, keep alphanumerics and dash and underscore, replace the rest. -/
def sanitizeCompany (company : String) : String :=
  let base := if company == "" then "customer" else company
  String.mk ((strLower base).data.map
    (fun c => if c.isAlphanum || c == '-' || c == '_' then c else '_'))

/-- Environment of one worker invocation: configuration, producer outcomes,
filesystem and S3 behaviour, and the clock readings of the two DynamoDB
writes. -/
structure WorkerEnv where
  jobId : String
  bucket : String
  s3pfx : String
  ttl : Nat
  keyTs : String
  ts0 : String
  ts1 : String
  tProc : Nat
  tFinal : Nat
  gen : RKind → GenOutcome
  fileExists : String → Bool
  uploadExc : RKind → Option String
  presign : String → String

/-- combined_results entry for one kind: the future delivers the run_
wrapper result (the wrappers catch producer exceptions themselves), which
the handler then normalises. -/
def workerCombined (env : WorkerEnv) (k : RKind) : PyDict :=
  normalizeResult (runReport k.tag (env.gen k) env.ts0 env.ts1)

/-- upload_and_presign in lambda_event_handler.handler.  Returns ok none
for the falsy-path and missing-file early exits (Python returns the empty
dict), error m when the S3 call raises, and the upload record otherwise.
Path resolution against the working directory is folded into fileExists. -/
def upload_and_presign (env : WorkerEnv) (local_path : PyVal) (company : String)
    (k : RKind) : Except String (Option UploadInfo) :=
  if !(truthy local_path) then Except.ok Option.none
  else if !(env.fileExists (pyToStr local_path)) then Except.ok Option.none
  else
    match env.uploadExc k with
    | some m => Except.error m
    | Option.none =>
        let key := env.s3pfx ++ sanitizeCompany company ++ "/" ++ env.jobId ++ "/"
          ++ k.tag ++ "_report_" ++ env.keyTs ++ ".pdf"
        Except.ok (some
          { type := k, bucket := env.bucket, key := key,
            presigned_url := env.presign key, expires_in_seconds := env.ttl })

/-- One iteration of the upload loop: either an s3_reports entry or an
errors entry.  An empty combined result skips upload_and_presign (`if res`);
a falsy upload result records the missing_or_invalid_pdf error; an exception
records its message. -/
def kindUploadStep (env : WorkerEnv) (res : PyDict) (k : RKind) :
    Option UploadInfo × Option (RKind × String) :=
  let pdf_candidate := pyOr (dget res "pdf_path") (dget res "output_path")
  let company := extract_company_name res
  let up := if res.isEmpty then Except.ok Option.none
            else upload_and_presign env pdf_candidate company k
  match up with
  | Except.error m => (Option.none, some (k, m))
  | Except.ok Option.none => (Option.none, some (k, "missing_or_invalid_pdf"))
  | Except.ok (some u) => (some u, Option.none)

def kindOrder : List RKind := [RKind.executive, RKind.technical, RKind.compliance]

def workerSteps (env : WorkerEnv) : List (Option UploadInfo × Option (RKind × String)) :=
  kindOrder.map (fun k => kindUploadStep env (workerCombined env k) k)

/-- s3_reports accumulated by the upload loop. -/
def uploadedReports (env : WorkerEnv) : List UploadInfo :=
  (workerSteps env).filterMap (fun s => s.1)

/-- errors accumulated by the upload loop. -/
def uploadErrors (env : WorkerEnv) : List (RKind × String) :=
  (workerSteps env).filterMap (fun s => s.2)

/-- legacy_s3: the first executive entry of s3_reports. -/
def legacyS3 (env : WorkerEnv) : Option UploadInfo :=
  (uploadedReports env).find? (fun i => i.type == RKind.executive)

/-- status_value: COMPLETED if legacy_s3 else PARTIAL if s3_reports else
FAILED. -/
def statusValue (legacy : Option UploadInfo) (s3r : List UploadInfo) : String :=
  if legacy.isSome then "COMPLETED" else if !s3r.isEmpty then "PARTIAL" else "FAILED"

/-- Coordinator submit put_item: the initial PENDING record. -/
def submitWrite (jobId : String) (t0 : Nat) : JobItem :=
  { job_id := jobId, status := "PENDING", created_at := t0, updated_at := t0 }

/-- Worker entry put_item: a whole-item replacement carrying only job_id,
status PROCESSING and fresh timestamps; the prior record is not read. -/
def processingWrite (env : WorkerEnv) (_prior : JobItem) : JobItem :=
  { job_id := env.jobId, status := "PROCESSING",
    created_at := env.tProc, updated_at := env.tProc }

/-- Worker terminal update_item: SET status, updated_at, metadata and
s3_reports, leaving every other attribute of the record in place. -/
def finalWrite (env : WorkerEnv) (rec : JobItem) : JobItem :=
  { rec with
    status := statusValue (legacyS3 env) (uploadedReports env),
    updated_at := env.tFinal,
    metadata := some (kindOrder.map (fun k => (k, workerCombined env k))),
    s3_reports := some (uploadedReports env) }

/-- The two DynamoDB writes of one worker invocation, in order. -/
def workerRun (env : WorkerEnv) (prior : JobItem) : JobItem :=
  finalWrite env (processingWrite env prior)

/-- HTTP status code of the worker invocation response: 500 when no report
uploaded, 200 otherwise. -/
def workerStatusCode (env : WorkerEnv) : Nat :=
  if (uploadedReports env).isEmpty then 500 else 200

/-! Coordinator (lambda_coordinator.py). -/

/-- Environment of one poll request: the fresh clock-dependent presigner and
the configured TTL. -/
structure PollEnv where
  presignAt : String → String
  ttl : Nat

/-- Branch-relevant content of the poll response body. -/
inductive PollOutcome where
  | success : List UploadInfo → Option UploadInfo → PollOutcome
  | failed : String → PollOutcome
  | processing : PollOutcome
  | other : String → PollOutcome
deriving DecidableEq, Repr

/-- GET branch of the coordinator for an existing record.  On COMPLETED or
PARTIAL each stored entry with truthy bucket and key is returned with a
freshly generated presigned URL and the configured expiry; on FAILED the
stored error_message is returned, defaulting to "Unknown error"; PENDING and
PROCESSING answer 202 with a progress message. -/
def pollJob (penv : PollEnv) (job : JobItem) : PollOutcome :=
  if job.status == "COMPLETED" || job.status == "PARTIAL" then
    let stored := job.s3_reports.getD []
    let updated := stored.filterMap (fun r =>
      if !(r.bucket == "") && !(r.key == "") then
        some { type := r.type, bucket := r.bucket, key := r.key,
               presigned_url := penv.presignAt r.key,
               expires_in_seconds := penv.ttl : UploadInfo }
      else Option.none)
    PollOutcome.success updated (updated.find? (fun r => r.type == RKind.executive))
  else if job.status == "FAILED" then
    PollOutcome.failed (job.error_message.getD "Unknown error")
  else if job.status == "PENDING" || job.status == "PROCESSING" then
    PollOutcome.processing
  else
    PollOutcome.other job.status

/-- The body field of a submit request: a JSON string (whose json.loads
outcome is the parse oracle), an already-deserialised dict, or absent. -/
inductive BodyField where
  | strBody : Except String PyVal → BodyField
  | dictBody : PyVal → BodyField
  | absent : BodyField

/-- Response of the POST branch: HTTP status code and the error field of the
body when one is produced. -/
structure PostResponse where
  statusCode : Nat
  errorMsg : Option String
deriving DecidableEq, Repr

/-- POST branch of the coordinator.  json.loads failure on a string body
raises inside the try, is caught, and yields the 500 response before
put_item runs, so no record is created; otherwise the PENDING record is
written and 202 returned. -/
def coordinatorPost (jobId : String) (t0 : Nat) (b : BodyField) :
    PostResponse × Option JobItem :=
  match b with
  | BodyField.strBody (Except.error m) =>
      ({ statusCode := 500, errorMsg := some ("Failed to submit job: " ++ m) }, Option.none)
  | BodyField.strBody (Except.ok _) =>
      ({ statusCode := 202, errorMsg := Option.none }, some (submitWrite jobId t0))
  | BodyField.dictBody _ =>
      ({ statusCode := 202, errorMsg := Option.none }, some (submitWrite jobId t0))
  | BodyField.absent =>
      ({ statusCode := 202, errorMsg := Option.none }, some (submitWrite jobId t0))

/-! Structural lemmas about the worker upload loop. -/

lemma upload_and_presign_shape (env : WorkerEnv) (p : PyVal) (c : String) (k : RKind)
    (u : UploadInfo) (h : upload_and_presign env p c k = Except.ok (some u)) :
    u.type = k ∧ u.bucket = env.bucket ∧ u.presigned_url = env.presign u.key ∧
      u.expires_in_seconds = env.ttl := by
  unfold upload_and_presign at h
  by_cases h1 : truthy p
  · by_cases h2 : env.fileExists (pyToStr p)
    · cases hx : env.uploadExc k with
      | some m => simp [h1, h2, hx] at h
      | none =>
          simp only [h1, h2, hx, Bool.not_true, Bool.false_eq_true, if_false,
            Except.ok.injEq, Option.some.injEq] at h
          subst h
          exact ⟨rfl, rfl, rfl, rfl⟩
    · simp [h1, h2] at h
  · simp [h1] at h

lemma kindUploadStep_some (env : WorkerEnv) (res : PyDict) (k : RKind) (u : UploadInfo)
    (h : (kindUploadStep env res k).1 = some u) :
    u.type = k ∧ u.bucket = env.bucket ∧ u.presigned_url = env.presign u.key ∧
      u.expires_in_seconds = env.ttl := by
  unfold kindUploadStep at h
  by_cases he : res.isEmpty
  · simp [he] at h
  · simp only [he] at h
    cases hu : upload_and_presign env (pyOr (dget res "pdf_path") (dget res "output_path"))
        (extract_company_name res) k with
    | error m => rw [hu] at h; simp at h
    | ok o =>
        cases o with
        | none => rw [hu] at h; simp at h
        | some v =>
            rw [hu] at h
            have hvu : v = u := by
              have hsome : (some v : Option UploadInfo) = some u := h
              injection hsome
            subst hvu
            exact upload_and_presign_shape env _ _ k v hu

lemma kindUploadStep_of_empty (env : WorkerEnv) (res : PyDict) (k : RKind)
    (h : res.isEmpty = true) :
    (kindUploadStep env res k).1 = Option.none := by
  unfold kindUploadStep
  simp [h]

lemma workerSteps_eq (env : WorkerEnv) :
    workerSteps env =
      [kindUploadStep env (workerCombined env RKind.executive) RKind.executive,
       kindUploadStep env (workerCombined env RKind.technical) RKind.technical,
       kindUploadStep env (workerCombined env RKind.compliance) RKind.compliance] := rfl

lemma mem_uploadedReports_iff (env : WorkerEnv) (u : UploadInfo) :
    u ∈ uploadedReports env ↔
      ∃ k, (kindUploadStep env (workerCombined env k) k).1 = some u := by
  unfold uploadedReports
  rw [workerSteps_eq]
  simp only [List.mem_filterMap, List.mem_cons, List.not_mem_nil, or_false]
  constructor
  · rintro ⟨s, hs, h1⟩
    rcases hs with h | h | h <;> exact ⟨_, by rw [h] at h1; exact h1⟩
  · rintro ⟨k, hk⟩
    cases k with
    | executive => exact ⟨_, Or.inl rfl, hk⟩
    | technical => exact ⟨_, Or.inr (Or.inl rfl), hk⟩
    | compliance => exact ⟨_, Or.inr (Or.inr rfl), hk⟩

/-- A kind appears among the uploaded s3_reports exactly when its own upload
step produced an entry. -/
def kindUploaded (env : WorkerEnv) (k : RKind) : Bool :=
  (uploadedReports env).any (fun i => i.type == k)

lemma kindUploaded_true_iff (env : WorkerEnv) (k : RKind) :
    kindUploaded env k = true ↔
      ((kindUploadStep env (workerCombined env k) k).1).isSome = true := by
  unfold kindUploaded
  rw [List.any_eq_true]
  constructor
  · rintro ⟨u, hu, ht⟩
    rw [mem_uploadedReports_iff] at hu
    obtain ⟨j, hj⟩ := hu
    have htype := (kindUploadStep_some env _ j u hj).1
    rw [beq_iff_eq] at ht
    have hjk : j = k := by rw [← htype, ht]
    subst hjk
    rw [hj]
    rfl
  · intro h
    obtain ⟨u, hu⟩ := Option.isSome_iff_exists.mp h
    refine ⟨u, (mem_uploadedReports_iff env u).mpr ⟨k, hu⟩, ?_⟩
    rw [beq_iff_eq]
    exact (kindUploadStep_some env _ k u hu).1

lemma uploadedReports_ne_nil (env : WorkerEnv) (k : RKind)
    (h : kindUploaded env k = true) : (uploadedReports env).isEmpty = false := by
  unfold kindUploaded at h
  rw [List.any_eq_true] at h
  obtain ⟨u, hu, _⟩ := h
  rw [List.isEmpty_eq_false]
  intro hnil
  rw [hnil] at hu
  exact List.not_mem_nil u hu

lemma legacyS3_isSome_iff (env : WorkerEnv) :
    (legacyS3 env).isSome = true ↔ kindUploaded env RKind.executive = true := by
  unfold legacyS3 kindUploaded
  rw [List.find?_isSome, List.any_eq_true]

lemma workerRun_status (env : WorkerEnv) (prior : JobItem) :
    (workerRun env prior).status = statusValue (legacyS3 env) (uploadedReports env) := rfl

lemma workerRun_s3_reports (env : WorkerEnv) (prior : JobItem) :
    (workerRun env prior).s3_reports = some (uploadedReports env) := rfl

lemma workerRun_error_message (env : WorkerEnv) (prior : JobItem) :
    (workerRun env prior).error_message = Option.none := rfl

lemma workerRun_created_at (env : WorkerEnv) (prior : JobItem) :
    (workerRun env prior).created_at = env.tProc := rfl

lemma statusValue_completed_iff (legacy : Option UploadInfo) (s3r : List UploadInfo) :
    statusValue legacy s3r = "COMPLETED" ↔ legacy.isSome = true := by
  unfold statusValue
  by_cases h : legacy.isSome
  · simp [h]
  · simp only [h, Bool.false_eq_true, if_false]
    by_cases h2 : s3r.isEmpty <;> simp [h2]

lemma statusValue_partial_iff (legacy : Option UploadInfo) (s3r : List UploadInfo) :
    statusValue legacy s3r = "PARTIAL" ↔ (legacy.isSome = false ∧ s3r.isEmpty = false) := by
  unfold statusValue
  by_cases h : legacy.isSome
  · simp only [h, if_true]
    constructor
    · intro hc; exact absurd hc (by decide)
    · rintro ⟨hf, _⟩; cases hf
  · simp only [h, Bool.false_eq_true, if_false]
    by_cases h2 : s3r.isEmpty <;> simp [h, h2]

lemma statusValue_failed_iff (legacy : Option UploadInfo) (s3r : List UploadInfo) :
    statusValue legacy s3r = "FAILED" ↔ (legacy.isSome = false ∧ s3r.isEmpty = true) := by
  unfold statusValue
  by_cases h : legacy.isSome
  · simp only [h, if_true]
    constructor
    · intro hc; exact absurd hc (by decide)
    · rintro ⟨hf, _⟩; cases hf
  · simp only [h, Bool.false_eq_true, if_false]
    by_cases h2 : s3r.isEmpty <;> simp [h, h2]

lemma legacyS3_isSome_eq (env : WorkerEnv) :
    (legacyS3 env).isSome = kindUploaded env RKind.executive := by
  by_cases h : kindUploaded env RKind.executive
  · rw [h, (legacyS3_isSome_iff env).mpr h]
  · rw [Bool.not_eq_true] at h
    rw [h]
    by_cases h2 : (legacyS3 env).isSome
    · exact absurd ((legacyS3_isSome_iff env).mp h2) (by rw [h]; decide)
    · rwa [Bool.not_eq_true] at h2

/-! Concrete environments used to evaluate the worker on specific runs. -/

/-- A producer outcome whose results dict carries a pdf_path. -/
def okDict (p : String) : GenOutcome := GenOutcome.ok (PyVal.vdict [("pdf_path", PyVal.vstr p)])

/-- Worker environment with every file present and every S3 call
succeeding; only the producer outcomes vary. -/
def envBase (g : RKind → GenOutcome) : WorkerEnv :=
  { jobId := "job1", bucket := "B", s3pfx := "reports/", ttl := 3600,
    keyTs := "20260101_000000", ts0 := "t0", ts1 := "t1",
    tProc := 5, tFinal := 9, gen := g,
    fileExists := fun _ => true, uploadExc := fun _ => Option.none,
    presign := fun k => "https://signed/" ++ k }

/-- Run in which only the executive producer succeeds. -/
def envOnlyExec : WorkerEnv := envBase (fun k =>
  match k with
  | RKind.executive => okDict "/tmp/e.pdf"
  | _ => GenOutcome.raises "boom")

/-- Run in which only the technical producer raises. -/
def envTechFail : WorkerEnv := envBase (fun k =>
  match k with
  | RKind.executive => okDict "/tmp/e.pdf"
  | RKind.technical => GenOutcome.raises "boom"
  | RKind.compliance => okDict "/tmp/c.pdf")

/-- Run in which only the executive producer raises. -/
def envExecFail : WorkerEnv := envBase (fun k =>
  match k with
  | RKind.executive => GenOutcome.raises "boom"
  | RKind.technical => okDict "/tmp/t.pdf"
  | RKind.compliance => okDict "/tmp/c.pdf")

/-- Run in which all three producers raise. -/
def envAllFail : WorkerEnv := envBase (fun _ => GenOutcome.raises "boom")

/-- The record the coordinator writes at submission for these runs. -/
def prior0 : JobItem := submitWrite "job1" 0

/-- Poll environment with a recognisable fresh presigner. -/
def penv0 : PollEnv := { presignAt := fun k => "fresh/" ++ k, ttl := 60 }

/-- All three kinds appear among the uploads. -/
def allKindsUploaded (env : WorkerEnv) : Bool := kindOrder.all (kindUploaded env)

/-- Claim C1 as stated: the terminal status is COMPLETED exactly when all
three kinds uploaded, PARTIAL exactly when some but not all uploaded, and
FAILED exactly when none uploaded. -/
def claimC1 : Prop := ∀ (env : WorkerEnv) (prior : JobItem),
  ((workerRun env prior).status = "COMPLETED" ↔ allKindsUploaded env = true) ∧
  ((workerRun env prior).status = "PARTIAL" ↔
    ((uploadedReports env).isEmpty = false ∧ allKindsUploaded env = false)) ∧
  ((workerRun env prior).status = "FAILED" ↔ (uploadedReports env).isEmpty = true)

/-- C1 is false on the code: in the run where only the executive report
uploads, the handler computes status COMPLETED (legacy rule: executive
uploaded suffices) although not all three kinds uploaded. -/
theorem c1_counterexample : ¬ claimC1 := by
  intro h
  have h1 := (h envOnlyExec prior0).1
  have hs : (workerRun envOnlyExec prior0).status = "COMPLETED" := by decide
  have hall : allKindsUploaded envOnlyExec = false := by decide
  rw [h1, hall] at hs
  cases hs

/-- C1 amended: the worker marks the job COMPLETED exactly when the
executive report uploaded (regardless of the other two kinds), PARTIAL
exactly when at least one report uploaded but the executive one did not,
and FAILED exactly when no report uploaded. -/
theorem c1_amended_status : ∀ (env : WorkerEnv) (prior : JobItem),
    ((workerRun env prior).status = "COMPLETED" ↔
      kindUploaded env RKind.executive = true) ∧
    ((workerRun env prior).status = "PARTIAL" ↔
      (kindUploaded env RKind.executive = false ∧ (uploadedReports env).isEmpty = false)) ∧
    ((workerRun env prior).status = "FAILED" ↔
      (kindUploaded env RKind.executive = false ∧ (uploadedReports env).isEmpty = true)) := by
  intro env prior
  rw [workerRun_status]
  refine ⟨?_, ?_, ?_⟩
  · rw [statusValue_completed_iff, legacyS3_isSome_eq]
  · rw [statusValue_partial_iff, legacyS3_isSome_eq]
  · rw [statusValue_failed_iff, legacyS3_isSome_eq]

lemma pollJob_of_failed (penv : PollEnv) (job : JobItem) (h : job.status = "FAILED") :
    pollJob penv job = PollOutcome.failed (job.error_message.getD "Unknown error") := by
  unfold pollJob
  rw [h]
  have h1 : (("FAILED" == "COMPLETED") || ("FAILED" == "PARTIAL")) = false := by decide
  have h2 : ("FAILED" == "FAILED") = true := by decide
  rw [h1, h2]
  simp

/-- Claim C2 as stated: when no report uploads, the persisted record is
FAILED and carries a non-empty error_message, and a poll returns exactly
that stored detail. -/
def claimC2 : Prop := ∀ (env : WorkerEnv) (prior : JobItem) (penv : PollEnv),
  (uploadedReports env).isEmpty = true →
  ((workerRun env prior).status = "FAILED" ∧
   ∃ m, (workerRun env prior).error_message = some m ∧ m ≠ "" ∧
     pollJob penv (workerRun env prior) = PollOutcome.failed m)

/-- C2 is false on the code: the terminal update_item never sets
error_message, so in the all-failures run the record has no error_message
at all; the existence clause fails. -/
theorem c2_counterexample : ¬ claimC2 := by
  intro h
  obtain ⟨-, m, hm, -, -⟩ := h envAllFail prior0 penv0 (by decide)
  rw [workerRun_error_message] at hm
  cases hm

/-- C2 amended: when no report uploads the record does reach FAILED, but no
error_message is stored (the available per-kind error details stay only in
the invocation response), so a subsequent poll falls back to the literal
"Unknown error" default rather than any stored detail. -/
theorem c2_amended_failed_record (env : WorkerEnv) (prior : JobItem) (penv : PollEnv)
    (h : (uploadedReports env).isEmpty = true) :
    (workerRun env prior).status = "FAILED" ∧
    (workerRun env prior).error_message = Option.none ∧
    pollJob penv (workerRun env prior) = PollOutcome.failed "Unknown error" := by
  have hnil : uploadedReports env = [] := List.isEmpty_iff.mp h
  have hleg : legacyS3 env = Option.none := by
    unfold legacyS3
    rw [hnil]
    rfl
  have hst : (workerRun env prior).status = "FAILED" := by
    rw [workerRun_status, statusValue_failed_iff, hleg]
    exact ⟨rfl, h⟩
  refine ⟨hst, workerRun_error_message env prior, ?_⟩
  rw [pollJob_of_failed penv _ hst, workerRun_error_message]
  rfl

/-- Witness for the amended C2 at the all-failures run. -/
theorem c2_amended_witness :
    (workerRun envAllFail prior0).status = "FAILED" ∧
    (workerRun envAllFail prior0).error_message = Option.none ∧
    pollJob penv0 (workerRun envAllFail prior0) = PollOutcome.failed "Unknown error" :=
  c2_amended_failed_record envAllFail prior0 penv0 (by decide)

/-- Claim C3 as stated: no signed URL value is ever stored persistently in
the job record, and every URL a poll returns is freshly generated with the
poll TTL. -/
def claimC3 : Prop :=
  (∀ (env : WorkerEnv) (prior : JobItem),
    ((workerRun env prior).s3_reports.getD []).all (fun u => u.presigned_url == "") = true) ∧
  (∀ (penv : PollEnv) (job : JobItem) (reports : List UploadInfo) (legacy : Option UploadInfo),
    pollJob penv job = PollOutcome.success reports legacy →
    ∀ u ∈ reports, u.presigned_url = penv.presignAt u.key ∧
      u.expires_in_seconds = penv.ttl)

/-- C3 is false on the code: the worker persists upload_and_presign output
verbatim, so the stored s3_reports entry of the executive-only run carries
the signed URL generated at upload time. -/
theorem c3_counterexample : ¬ claimC3 := by
  intro h
  have h1 := h.1 envOnlyExec prior0
  have : ((workerRun envOnlyExec prior0).s3_reports.getD []).all
      (fun u => u.presigned_url == "") = false := by decide
  rw [h1] at this
  cases this

lemma pollJob_success_inv (penv : PollEnv) (job : JobItem) (reports : List UploadInfo)
    (legacy : Option UploadInfo) (h : pollJob penv job = PollOutcome.success reports legacy) :
    ∀ u ∈ reports, u.presigned_url = penv.presignAt u.key ∧
      u.expires_in_seconds = penv.ttl := by
  unfold pollJob at h
  by_cases hc : (job.status == "COMPLETED" || job.status == "PARTIAL") = true
  · rw [if_pos hc] at h
    have hrep : reports = (job.s3_reports.getD []).filterMap (fun r =>
        if !(r.bucket == "") && !(r.key == "") then
          some { type := r.type, bucket := r.bucket, key := r.key,
                 presigned_url := penv.presignAt r.key,
                 expires_in_seconds := penv.ttl : UploadInfo }
        else Option.none) := by
      injection h with h1 h2
      exact h1.symm
    intro u hu
    rw [hrep] at hu
    rw [List.mem_filterMap] at hu
    obtain ⟨r, -, hr⟩ := hu
    by_cases hb : (!(r.bucket == "") && !(r.key == "")) = true
    · rw [if_pos hb] at hr
      injection hr with hr
      subst hr
      exact ⟨rfl, rfl⟩
    · rw [if_neg hb] at hr
      cases hr
  · rw [if_neg hc] at h
    by_cases hf : (job.status == "FAILED") = true
    · rw [if_pos hf] at h
      cases h
    · rw [if_neg hf] at h
      by_cases hp : (job.status == "PENDING" || job.status == "PROCESSING") = true
      · rw [if_pos hp] at h
        cases h
      · rw [if_neg hp] at h
        cases h

/-- C3 amended: signed URLs are in fact persisted inside the s3_reports
entries of the job record (each stored entry carries the URL the worker
presigned at upload time), but every retrieval URL returned by a poll of a
COMPLETED or PARTIAL job is freshly generated at poll time with the
configured bounded expiry, never reused from the stored record. -/
theorem c3_amended_fresh_urls :
    (∀ (env : WorkerEnv) (prior : JobItem),
      ∀ u ∈ (workerRun env prior).s3_reports.getD [],
        u.presigned_url = env.presign u.key ∧ u.expires_in_seconds = env.ttl) ∧
    (∀ (penv : PollEnv) (job : JobItem) (reports : List UploadInfo)
        (legacy : Option UploadInfo),
      pollJob penv job = PollOutcome.success reports legacy →
      ∀ u ∈ reports, u.presigned_url = penv.presignAt u.key ∧
        u.expires_in_seconds = penv.ttl) := by
  constructor
  · intro env prior u hu
    rw [workerRun_s3_reports] at hu
    have hu2 : u ∈ uploadedReports env := hu
    rw [mem_uploadedReports_iff] at hu2
    obtain ⟨k, hk⟩ := hu2
    have := kindUploadStep_some env _ k u hk
    exact ⟨this.2.2.1, this.2.2.2⟩
  · exact pollJob_success_inv

/-- The entry a poll of the executive-only run returns, presigned freshly
by penv0. -/
def freshExecEntry : UploadInfo :=
  { type := RKind.executive, bucket := "B",
    key := "reports/customer/job1/executive_report_20260101_000000.pdf",
    presigned_url := "fresh/reports/customer/job1/executive_report_20260101_000000.pdf",
    expires_in_seconds := 60 }

/-- Witness for the amended C3: the stored executive entry of the
executive-only run, and the fresh entry a poll of that record returns. -/
theorem c3_amended_witness :
    (∀ u ∈ (workerRun envOnlyExec prior0).s3_reports.getD [],
      u.presigned_url = envOnlyExec.presign u.key ∧
        u.expires_in_seconds = envOnlyExec.ttl) ∧
    (∀ u ∈ [freshExecEntry],
      u.presigned_url = penv0.presignAt u.key ∧ u.expires_in_seconds = penv0.ttl) :=
  ⟨c3_amended_fresh_urls.1 envOnlyExec prior0,
   c3_amended_fresh_urls.2 penv0 (workerRun envOnlyExec prior0) [freshExecEntry]
     (some freshExecEntry) (by decide)⟩

/-- Claim C4 as stated: the created_at written at submission survives the
PROCESSING write and the terminal write, which change only status,
updated_at and the result fields, and updated_at never decreases. -/
def claimC4 : Prop := ∀ (jid : String) (t0 : Nat) (env : WorkerEnv),
  (processingWrite env (submitWrite jid t0)).created_at = t0 ∧
  (workerRun env (submitWrite jid t0)).created_at = t0

/-- C4 is false on the code: the worker marks PROCESSING with put_item, a
whole-item replacement that rewrites created_at with the worker clock
(here 5, while submission wrote 0). -/
theorem c4_counterexample : ¬ claimC4 := by
  intro h
  have h1 := (h "job1" 0 envOnlyExec).1
  have : (processingWrite envOnlyExec (submitWrite "job1" 0)).created_at = 5 := rfl
  rw [h1] at this
  cases this

/-- C4 amended: the PROCESSING write replaces the whole record, resetting
created_at to the worker clock; the terminal write then leaves created_at,
job_id and error_message unchanged and changes only status, updated_at,
metadata and s3_reports; updated_at is monotonically non-decreasing across
the three writes whenever the clock readings are ordered. -/
theorem c4_amended_timestamps (jid : String) (t0 : Nat) (env : WorkerEnv)
    (h1 : t0 ≤ env.tProc) (h2 : env.tProc ≤ env.tFinal) :
    (processingWrite env (submitWrite jid t0)).created_at = env.tProc ∧
    (processingWrite env (submitWrite jid t0)).status = "PROCESSING" ∧
    (workerRun env (submitWrite jid t0)).created_at =
      (processingWrite env (submitWrite jid t0)).created_at ∧
    (workerRun env (submitWrite jid t0)).job_id =
      (processingWrite env (submitWrite jid t0)).job_id ∧
    (workerRun env (submitWrite jid t0)).error_message =
      (processingWrite env (submitWrite jid t0)).error_message ∧
    (submitWrite jid t0).updated_at ≤ (processingWrite env (submitWrite jid t0)).updated_at ∧
    (processingWrite env (submitWrite jid t0)).updated_at ≤
      (workerRun env (submitWrite jid t0)).updated_at :=
  ⟨rfl, rfl, rfl, rfl, rfl, h1, h2⟩

/-- Witness for the amended C4 at the executive-only run. -/
theorem c4_amended_witness :
    (processingWrite envOnlyExec (submitWrite "job1" 0)).created_at = envOnlyExec.tProc ∧
    (processingWrite envOnlyExec (submitWrite "job1" 0)).status = "PROCESSING" ∧
    (workerRun envOnlyExec (submitWrite "job1" 0)).created_at =
      (processingWrite envOnlyExec (submitWrite "job1" 0)).created_at ∧
    (workerRun envOnlyExec (submitWrite "job1" 0)).job_id =
      (processingWrite envOnlyExec (submitWrite "job1" 0)).job_id ∧
    (workerRun envOnlyExec (submitWrite "job1" 0)).error_message =
      (processingWrite envOnlyExec (submitWrite "job1" 0)).error_message ∧
    (submitWrite "job1" 0).updated_at ≤
      (processingWrite envOnlyExec (submitWrite "job1" 0)).updated_at ∧
    (processingWrite envOnlyExec (submitWrite "job1" 0)).updated_at ≤
      (workerRun envOnlyExec (submitWrite "job1" 0)).updated_at :=
  c4_amended_timestamps "job1" 0 envOnlyExec (by decide) (by decide)

/-- Claim C5 as stated: a submit whose body fails to deserialize yields a
client-class (4xx) response and creates no job record. -/
def claimC5 : Prop := ∀ (jid : String) (t0 : Nat) (m : String),
  400 ≤ (coordinatorPost jid t0 (BodyField.strBody (Except.error m))).1.statusCode ∧
  (coordinatorPost jid t0 (BodyField.strBody (Except.error m))).1.statusCode < 500 ∧
  (coordinatorPost jid t0 (BodyField.strBody (Except.error m))).2 = Option.none

/-- C5 is false on the code: the json.loads failure is swallowed by the
catch-all handler, which answers 500, a server-class code. -/
theorem c5_counterexample : ¬ claimC5 := by
  intro h
  have h2 := (h "job1" 0 "Expecting value").2.1
  have hc : (coordinatorPost "job1" 0
      (BodyField.strBody (Except.error "Expecting value"))).1.statusCode = 500 := rfl
  rw [hc] at h2
  exact absurd h2 (by decide)

/-- C5 amended: a submit whose body fails to deserialize yields the 500
server-error response with the descriptive message of the exception, and no
job record is created (put_item is only reached after a successful parse). -/
theorem c5_amended_server_error : ∀ (jid : String) (t0 : Nat) (m : String),
    (coordinatorPost jid t0 (BodyField.strBody (Except.error m))).1.statusCode = 500 ∧
    (coordinatorPost jid t0 (BodyField.strBody (Except.error m))).1.errorMsg =
      some ("Failed to submit job: " ++ m) ∧
    (coordinatorPost jid t0 (BodyField.strBody (Except.error m))).2 = Option.none := by
  intro jid t0 m
  exact ⟨rfl, rfl, rfl⟩

/-- Claim C6 as stated: if exactly one producer raises and the other two
kinds upload, the job always ends PARTIAL. -/
def claimC6 : Prop := ∀ (env : WorkerEnv) (prior : JobItem) (k0 : RKind) (m : String),
  env.gen k0 = GenOutcome.raises m →
  (∀ k, k ≠ k0 → kindUploaded env k = true) →
  (workerRun env prior).status = "PARTIAL"

/-- C6 is false on the code: when the technical producer raises while the
executive and compliance reports upload, legacy_s3 is present and the
handler marks the job COMPLETED, not PARTIAL. -/
theorem c6_counterexample : ¬ claimC6 := by
  intro h
  have hall : ∀ k, k ≠ RKind.technical → kindUploaded envTechFail k = true := by
    intro k hkk
    cases k with
    | executive => decide
    | technical => exact absurd rfl hkk
    | compliance => decide
  have hp := h envTechFail prior0 RKind.technical "boom" rfl hall
  have hs : (workerRun envTechFail prior0).status = "COMPLETED" := by decide
  rw [hs] at hp
  exact absurd hp (by decide)

/-- C6 amended: the raised exception is caught by the runner and converted
into an error ReportResult for that kind only; its combined result is the
empty dict while the other two kinds have non-empty results; the job ends
PARTIAL when the failing kind is the executive one and COMPLETED otherwise,
and never FAILED. -/
theorem c6_amended_isolation (env : WorkerEnv) (prior : JobItem) (k0 : RKind) (m : String)
    (hg : env.gen k0 = GenOutcome.raises m)
    (hk : ∀ k, k ≠ k0 → kindUploaded env k = true) :
    (runReport k0.tag (env.gen k0) env.ts0 env.ts1).status = "error" ∧
    (runReport k0.tag (env.gen k0) env.ts0 env.ts1).error = some m ∧
    (workerCombined env k0).isEmpty = true ∧
    (∀ k, k ≠ k0 → (workerCombined env k).isEmpty = false) ∧
    kindUploaded env k0 = false ∧
    (workerRun env prior).status =
      (if k0 = RKind.executive then "PARTIAL" else "COMPLETED") ∧
    (workerRun env prior).status ≠ "FAILED" := by
  have hr1 : (runReport k0.tag (env.gen k0) env.ts0 env.ts1).status = "error" := by
    rw [hg]; rfl
  have hr2 : (runReport k0.tag (env.gen k0) env.ts0 env.ts1).error = some m := by
    rw [hg]; rfl
  have hcomb : (workerCombined env k0).isEmpty = true := by
    unfold workerCombined
    rw [hg]
    rfl
  have hother : ∀ k, k ≠ k0 → (workerCombined env k).isEmpty = false := by
    intro k hkk
    have hsome := (kindUploaded_true_iff env k).mp (hk k hkk)
    by_cases he : (workerCombined env k).isEmpty
    · rw [kindUploadStep_of_empty env _ k he] at hsome
      cases hsome
    · rwa [Bool.not_eq_true] at he
  have hk0up : kindUploaded env k0 = false := by
    by_cases hb : kindUploaded env k0
    · have hsome := (kindUploaded_true_iff env k0).mp hb
      rw [kindUploadStep_of_empty env _ k0 hcomb] at hsome
      cases hsome
    · rwa [Bool.not_eq_true] at hb
  have hstatus : (workerRun env prior).status =
      (if k0 = RKind.executive then "PARTIAL" else "COMPLETED") := by
    cases k0 with
    | executive =>
        rw [if_pos rfl, workerRun_status, statusValue_partial_iff, legacyS3_isSome_eq]
        refine ⟨hk0up, ?_⟩
        exact uploadedReports_ne_nil env RKind.technical
          (hk RKind.technical (by intro hc; cases hc))
    | technical =>
        rw [if_neg (by intro hc; cases hc), workerRun_status,
          statusValue_completed_iff, legacyS3_isSome_eq]
        exact hk RKind.executive (by intro hc; cases hc)
    | compliance =>
        rw [if_neg (by intro hc; cases hc), workerRun_status,
          statusValue_completed_iff, legacyS3_isSome_eq]
        exact hk RKind.executive (by intro hc; cases hc)
  refine ⟨hr1, hr2, hcomb, hother, hk0up, hstatus, ?_⟩
  rw [hstatus]
  by_cases hke : k0 = RKind.executive
  · rw [if_pos hke]; decide
  · rw [if_neg hke]; decide

/-- Witness for the amended C6: the executive producer raises while the
other two upload, and the job ends PARTIAL. -/
theorem c6_amended_witness :
    (workerCombined envExecFail RKind.executive).isEmpty = true ∧
    (workerRun envExecFail prior0).status = "PARTIAL" := by
  have hall : ∀ k, k ≠ RKind.executive → kindUploaded envExecFail k = true := by
    intro k hkk
    cases k with
    | executive => exact absurd rfl hkk
    | technical => decide
    | compliance => decide
  have h := c6_amended_isolation envExecFail prior0 RKind.executive "boom" rfl hall
  refine ⟨h.2.2.1, ?_⟩
  have hs := h.2.2.2.2.2.1
  rwa [if_pos rfl] at hs

/-- Lower-cased business-problems text of an assessment. -/
def problemText (r : Responses) : String := strLower (rget r "business-problems" "")

/-- Claim C7 as stated, for one inference function: healthcare keywords
first, then financial, then manufacturing/automotive, defaulting to
Technology. -/
def claimC7At (f : Responses → String) : Prop :=
  (∀ r, anyKw hcKws (problemText r) = true → f r = "Healthcare Technology") ∧
  (∀ r, anyKw hcKws (problemText r) = false → anyKw finKwsExec (problemText r) = true →
    f r = "Financial Technology") ∧
  (∀ r, anyKw hcKws (problemText r) = false → anyKw finKwsExec (problemText r) = false →
    anyKw mfgKws (problemText r) = true → f r = "Manufacturing & Automotive") ∧
  (∀ r, anyKw hcKws (problemText r) = false → anyKw finKwsExec (problemText r) = false →
    anyKw mfgKws (problemText r) = false → f r = "Technology")

/-- Claim C7 as stated: every producer infers industry by the three-set
priority rule. -/
def claimC7 : Prop :=
  claimC7At inferIndustryExec ∧ claimC7At inferIndustryTech ∧ claimC7At inferIndustryComp

/-- C7 is false on the code: the compliance generator has no
manufacturing/automotive keyword set, so business-problems text "vehicle
assembly" yields Technology there instead of Manufacturing & Automotive. -/
theorem c7_counterexample : ¬ claimC7 := by
  intro h
  have h3 := h.2.2.2.2.1 [("business-problems", "vehicle assembly")]
    (by decide) (by decide) (by decide)
  exact absurd h3 (by decide)

lemma claimC7At_of_three_sets (f : Responses → String)
    (hf : ∀ r, f r =
      (if anyKw hcKws (problemText r) then "Healthcare Technology"
       else if anyKw finKwsExec (problemText r) then "Financial Technology"
       else if anyKw mfgKws (problemText r) then "Manufacturing & Automotive"
       else "Technology")) : claimC7At f := by
  refine ⟨?_, ?_, ?_, ?_⟩
  · intro r h1
    rw [hf r, if_pos h1]
  · intro r h1 h2
    rw [hf r, if_neg (by rw [h1]; exact Bool.false_ne_true), if_pos h2]
  · intro r h1 h2 h3
    rw [hf r, if_neg (by rw [h1]; exact Bool.false_ne_true),
      if_neg (by rw [h2]; exact Bool.false_ne_true), if_pos h3]
  · intro r h1 h2 h3
    rw [hf r, if_neg (by rw [h1]; exact Bool.false_ne_true),
      if_neg (by rw [h2]; exact Bool.false_ne_true),
      if_neg (by rw [h3]; exact Bool.false_ne_true)]

/-- C7 amended: the executive and technical generators follow the claimed
three-set priority rule exactly; the compliance generator checks only the
healthcare set and a financial set that additionally contains "advisory"
(no manufacturing set), so healthcare still wins every tie and unmatched
text falls back to Technology in all three. -/
theorem c7_amended_industry :
    claimC7At inferIndustryExec ∧ claimC7At inferIndustryTech ∧
    (∀ r, anyKw hcKws (problemText r) = true →
      inferIndustryComp r = "Healthcare Technology") ∧
    (∀ r, anyKw hcKws (problemText r) = false → anyKw finKwsComp (problemText r) = true →
      inferIndustryComp r = "Financial Technology") ∧
    (∀ r, anyKw hcKws (problemText r) = false → anyKw finKwsComp (problemText r) = false →
      inferIndustryComp r = "Technology") := by
  refine ⟨claimC7At_of_three_sets _ (fun r => rfl),
          claimC7At_of_three_sets _ (fun r => rfl), ?_, ?_, ?_⟩
  · intro r h1
    unfold inferIndustryComp
    rw [show strLower (rget r "business-problems" "") = problemText r from rfl,
      if_pos h1]
  · intro r h1 h2
    unfold inferIndustryComp
    rw [show strLower (rget r "business-problems" "") = problemText r from rfl,
      if_neg (by rw [h1]; exact Bool.false_ne_true), if_pos h2]
  · intro r h1 h2
    unfold inferIndustryComp
    rw [show strLower (rget r "business-problems" "") = problemText r from rfl,
      if_neg (by rw [h1]; exact Bool.false_ne_true),
      if_neg (by rw [h2]; exact Bool.false_ne_true)]

/-- Witness for the amended C7: text containing both a healthcare and a
financial keyword is classified Healthcare Technology by all three
generators, and the compliance generator sends pure manufacturing text to
Technology. -/
theorem c7_amended_witness :
    inferIndustryExec [("business-problems", "Patient payment records")] =
      "Healthcare Technology" ∧
    inferIndustryTech [("business-problems", "Patient payment records")] =
      "Healthcare Technology" ∧
    inferIndustryComp [("business-problems", "Patient payment records")] =
      "Healthcare Technology" ∧
    inferIndustryComp [("business-problems", "vehicle assembly")] = "Technology" :=
  ⟨c7_amended_industry.1.1 _ (by decide),
   c7_amended_industry.2.1.1 _ (by decide),
   c7_amended_industry.2.2.1 _ (by decide),
   c7_amended_industry.2.2.2.2 _ (by decide) (by decide)⟩

/-- Claim C8 as stated, for one normalisation function: before-comma prefix
when the business-owner field has a comma, else the company-name response
when present, else the placeholder. -/
def claimC8At (f : Responses → String) : Prop := ∀ r,
  f r = (if strHasChar (rget r "business-owner" "") ',' then
           beforeCommaTrim (rget r "business-owner" "")
         else
           match rlookup r "company-name" with
           | some c => c
           | Option.none => "Valued Customer")

/-- Claim C8 as stated: every producer normalises the company name by that
rule. -/
def claimC8 : Prop :=
  claimC8At companyNameExec ∧ claimC8At companyNameComp ∧ claimC8At companyNameTech

/-- C8 is false on the code: the executive generator never consults the
company-name response; with no comma in business-owner and company-name
"Acme Corp" present it still produces the placeholder. -/
theorem c8_counterexample : ¬ claimC8 := by
  intro h
  have h1 := h.1 [("business-owner", "John"), ("company-name", "Acme Corp")]
  exact absurd h1 (by decide)

/-- C8 amended: with a comma in the business-owner response all three
generators return the stripped before-comma prefix (so "Acme Corp, John
Smith" yields "Acme Corp"); without one, the compliance generator falls
back to the company-name response and the technical generator does too
unless that response is empty, while the executive generator always uses
the placeholder. -/
theorem c8_amended_company_name :
    (∀ r, strHasChar (rget r "business-owner" "") ',' = true →
      companyNameExec r = beforeCommaTrim (rget r "business-owner" "") ∧
      companyNameComp r = beforeCommaTrim (rget r "business-owner" "") ∧
      companyNameTech r = beforeCommaTrim (rget r "business-owner" "")) ∧
    (∀ r, strHasChar (rget r "business-owner" "") ',' = false →
      companyNameExec r = "Valued Customer" ∧
      companyNameComp r = rget r "company-name" "Valued Customer" ∧
      companyNameTech r =
        (if rget r "company-name" "Valued Customer" == "" then "Valued Customer"
         else rget r "company-name" "Valued Customer")) := by
  constructor
  · intro r h
    unfold companyNameExec companyNameComp companyNameTech
    rw [if_pos h, if_pos h, if_pos h]
    exact ⟨rfl, rfl, rfl⟩
  · intro r h
    unfold companyNameExec companyNameComp companyNameTech
    rw [if_neg (by rw [h]; exact Bool.false_ne_true),
      if_neg (by rw [h]; exact Bool.false_ne_true),
      if_neg (by rw [h]; exact Bool.false_ne_true)]
    exact ⟨rfl, rfl, rfl⟩

/-- Witness for the amended C8: the comma case on "Acme Corp, John Smith"
and the no-comma case with a present company-name response. -/
theorem c8_amended_witness :
    (companyNameExec [("business-owner", "Acme Corp, John Smith")] =
       beforeCommaTrim (rget [("business-owner", "Acme Corp, John Smith")] "business-owner" "") ∧
     companyNameComp [("business-owner", "Acme Corp, John Smith")] =
       beforeCommaTrim (rget [("business-owner", "Acme Corp, John Smith")] "business-owner" "") ∧
     companyNameTech [("business-owner", "Acme Corp, John Smith")] =
       beforeCommaTrim (rget [("business-owner", "Acme Corp, John Smith")] "business-owner" "")) ∧
    (companyNameExec [("business-owner", "John"), ("company-name", "Acme Corp")] =
       "Valued Customer" ∧
     companyNameComp [("business-owner", "John"), ("company-name", "Acme Corp")] =
       rget [("business-owner", "John"), ("company-name", "Acme Corp")] "company-name"
         "Valued Customer" ∧
     companyNameTech [("business-owner", "John"), ("company-name", "Acme Corp")] =
       (if rget [("business-owner", "John"), ("company-name", "Acme Corp")] "company-name"
           "Valued Customer" == "" then "Valued Customer"
        else rget [("business-owner", "John"), ("company-name", "Acme Corp")] "company-name"
           "Valued Customer")) :=
  ⟨c8_amended_company_name.1 _ (by decide),
   c8_amended_company_name.2 _ (by decide)⟩

/-- C9: the compliance producer returns the distinct not-applicable outcome
exactly when the force override is off and the inferred industry misses the
regulated-industry allowlist; whenever the industry matches the allowlist
(or force is set) production is attempted, yielding either a generated
report or an error, never the not-applicable signal. -/
theorem c9_compliance_gate : ∀ (produce : Except String PyVal) (r : Responses) (force : Bool),
    complianceGenerate produce r force = CompReport.notApplicable ↔
      (force = false ∧
       should_generate_compliance_report (inferIndustryComp r) = false) := by
  intro produce r force
  unfold complianceGenerate
  by_cases hf : force
  · subst hf
    constructor
    · intro h
      simp only [Bool.not_true, Bool.false_and, Bool.false_eq_true, if_false] at h
      cases produce <;> cases h
    · rintro ⟨h, -⟩
      cases h
  · rw [Bool.not_eq_true] at hf
    subst hf
    by_cases hg : should_generate_compliance_report (inferIndustryComp r)
    · constructor
      · intro h
        simp only [hg, Bool.not_true, Bool.and_false, Bool.false_eq_true, if_false] at h
        cases produce <;> cases h
      · rintro ⟨-, h⟩
        rw [hg] at h
        cases h
    · rw [Bool.not_eq_true] at hg
      simp [hg]

/-- C10: the deployed worker invokes the compliance runner with the force
override hard-wired to True, and under force the applicability gate never
declines, so a compliance report is attempted for every assessment,
regulated industry or not. -/
theorem c10_force_true : ∀ (r : Responses) (produce : Except String PyVal) (t0 t1 : String),
    workerComplianceCall r produce t0 t1 = run_compliance_wrap r produce true t0 t1 ∧
    complianceGenerate produce r true ≠ CompReport.notApplicable := by
  intro r produce t0 t1
  refine ⟨rfl, ?_⟩
  unfold complianceGenerate
  simp only [Bool.not_true, Bool.false_and, Bool.false_eq_true, if_false]
  intro h
  cases produce <;> cases h
